import Mathlib

/-!
Verification of the resilient publishing orchestrator of the
`ai-content-publisher` repository: a shallow embedding in Lean 4 of the
circuit breaker and retry handler (`retry-handler` module), the content
scheduler (`content-scheduler` module), the bulk publisher
(`bulk-publisher` module) and the content tester
(`src/core/content-tester.ts`), together with theorems settling the
frozen behavioural claims about them.

Conventions of the embedding:
* Timestamps (`Date.now()`, `Date` values) are naturals counting
  milliseconds; local-time calendar arithmetic of the scheduler is
  embedded as UTC arithmetic on epoch milliseconds
  (epoch day 0 is a Thursday, so JavaScript's `getDay` is
  `(days since epoch + 4) % 7`).
* JavaScript strings are Lean `String`s handled as lists of characters;
  `String.prototype.includes` is substring containment and
  `toLowerCase` is embedded for the ASCII range (every needle the code
  compares against is ASCII).
* A fallible async operation is a value of `Except JsError α`; an
  operation invoked once per attempt is a function from the 1-indexed
  attempt number to such a value.  `Math.random()` draws are an
  explicit stream of rationals in `[0, 1)`.
* Fields of source objects that no modelled observation reads
  (human-readable messages, `totalTime`, engagement estimates,
  suggestion texts) are omitted from the corresponding structures.
-/

/-! ## JavaScript string helpers -/

/-- ASCII `toLowerCase` on a single character (all needles compared by the
code are ASCII, where JavaScript's `toLowerCase` is exactly this map). -/
def lowerChar (c : Char) : Char :=
  if 'A' ≤ c ∧ c ≤ 'Z' then Char.ofNat (c.toNat + 32) else c

/-- ASCII `String.prototype.toLowerCase`, on the character list. -/
def lowerChars (s : List Char) : List Char :=
  s.map lowerChar

/-- Does `pat` occur at the head of `hay`? -/
def charsPrefix : List Char → List Char → Bool
  | [], _ => true
  | _ :: _, [] => false
  | a :: as, b :: bs => a == b && charsPrefix as bs

/-- `String.prototype.includes`: does `pat` occur anywhere in `hay`? -/
def charsContains (hay pat : List Char) : Bool :=
  match hay with
  | [] => pat.isEmpty
  | _ :: rest => charsPrefix pat hay || charsContains rest pat

/-- `hay.includes(pat)` for Lean strings. -/
def strIncludes (hay pat : String) : Bool :=
  charsContains hay.toList pat.toList

/-- `hay.toLowerCase().includes(pat)` — the combination used throughout
`isRetryableError` and `categorizeError`. -/
def lowerIncludes (hay : List Char) (pat : String) : Bool :=
  charsContains hay pat.toList

/-! ## Errors (`retry-handler` module)

A JavaScript error value as observed by the retry handler: its message,
the HTTP status (`error.response?.status || error.statusCode`, `none`
when both are absent), and, when the value is an instance of the
`RetryableError` class, its `isRetryable` flag. -/

structure JsError where
  message : String := ""
  statusCode : Option Nat := none
  retryableFlag : Option Bool := none
deriving Repr, DecidableEq

/-- `ErrorType` enum of the retry handler. -/
inductive ErrorType
  | network
  | authentication
  | rate_limit
  | validation
  | server
  | client
  | timeout
  | unknown
deriving Repr, DecidableEq

/-! ## Circuit breaker (`CircuitBreaker` class) -/

/-- `CircuitState` enum; `open_` embeds the source's `OPEN = 'open'`
(`open` is a Lean keyword). -/
inductive CircuitState
  | closed
  | open_
  | half_open
deriving Repr, DecidableEq

/-- The `CircuitBreaker` instance state together with its constructor
parameters (`threshold`, `resetTimeMs`). -/
structure CircuitBreaker where
  state : CircuitState := .closed
  failureCount : Nat := 0
  lastFailureTime : Nat := 0
  successCount : Nat := 0
  threshold : Nat := 5
  resetTimeMs : Nat := 60000
deriving Repr, DecidableEq

namespace CircuitBreaker

/-- `private onSuccess()`: reset `failureCount`; in `half_open`, count the
success and close after the third one. -/
def onSuccess (cb : CircuitBreaker) : CircuitBreaker :=
  let cb := { cb with failureCount := 0 }
  if cb.state = .half_open then
    let sc := cb.successCount + 1
    if 3 ≤ sc then { cb with successCount := sc, state := .closed }
    else { cb with successCount := sc }
  else cb

/-- `private onFailure()`: count the failure, stamp `lastFailureTime`,
and trip to `open` once `failureCount` reaches the threshold. -/
def onFailure (now : Nat) (cb : CircuitBreaker) : CircuitBreaker :=
  let cb := { cb with failureCount := cb.failureCount + 1, lastFailureTime := now }
  if cb.threshold ≤ cb.failureCount then { cb with state := .open_ } else cb

/-- The gate at the top of `execute`: in the `open` state the call is
rejected (`none`, the `Circuit breaker is OPEN` error) while the reset
timeout has not elapsed; otherwise the breaker moves to `half_open` with
`successCount := 0`.  `Date.now() - lastFailureTime < resetTimeMs` is
`now < lastFailureTime + resetTimeMs` over naturals. -/
def gate (cb : CircuitBreaker) (now : Nat) : Option CircuitBreaker :=
  if cb.state = .open_ then
    if now < cb.lastFailureTime + cb.resetTimeMs then none
    else some { cb with state := .half_open, successCount := 0 }
  else some cb

/-- Observable outcome of one `execute` call: `rejected` is the
breaker-open fast-fail (the wrapped operation was never invoked);
`ok`/`failed` relay the operation's own outcome. -/
inductive ExecOutcome (α : Type)
  | rejected
  | ok (v : α)
  | failed (e : JsError)
deriving Repr, DecidableEq

/-- `async execute(operation)`: gate, run the operation, feed the
outcome to `onSuccess`/`onFailure`.  The single deterministic outcome of
the wrapped operation for this call is passed as `op`. -/
def execute (cb : CircuitBreaker) (now : Nat) (op : Except JsError α) :
    ExecOutcome α × CircuitBreaker :=
  match gate cb now with
  | none => (.rejected, cb)
  | some cb1 =>
    match op with
    | .ok v => (.ok v, onSuccess cb1)
    | .error e => (.failed e, onFailure now cb1)

/-- Breaker states reachable from a freshly constructed
`new CircuitBreaker(threshold, resetTimeMs)` by any sequence of
`execute` calls (at arbitrary times, with arbitrary operation
outcomes). -/
inductive Reach : CircuitBreaker → Prop
  | init (t r : Nat) : Reach { threshold := t, resetTimeMs := r }
  | step {cb : CircuitBreaker} (now : Nat) (op : Except JsError Unit) :
      Reach cb → Reach (execute cb now op).2

end CircuitBreaker

/-- A freshly constructed `new CircuitBreaker()` with the default
constructor arguments. -/
def freshBreaker : CircuitBreaker := {}

/-- A generic failing-operation error for concrete traces. -/
def boomErr : JsError := { message := "boom" }

/-- Run a sequence of `execute` calls (time, operation outcome) against a
breaker, returning the final breaker state. -/
def runCalls (cb : CircuitBreaker) (calls : List (Nat × Except JsError Unit)) :
    CircuitBreaker :=
  calls.foldl (fun cb c => (CircuitBreaker.execute cb c.1 c.2).2) cb

/-! A first sanity check of the embedding: five failures trip the
breaker at the default threshold. -/

example :
    (runCalls freshBreaker
      [(0, .error boomErr), (1, .error boomErr), (2, .error boomErr),
       (3, .error boomErr), (4, .error boomErr)]).state = CircuitState.open_ := by
  decide

/-- Any state produced by a sequence of `execute` calls from a reachable
state is reachable. -/
theorem reach_runCalls (cb : CircuitBreaker) (calls : List (Nat × Except JsError Unit))
    (h : CircuitBreaker.Reach cb) : CircuitBreaker.Reach (runCalls cb calls) := by
  induction calls generalizing cb with
  | nil => exact h
  | cons c cs ih =>
    exact ih _ (CircuitBreaker.Reach.step c.1 c.2 h)

/-- The trace refuting C1: five failures trip the default breaker to
`open`; after the reset timeout one half-open call succeeds.  The
resulting breaker is reachable, is in `half_open`, and has
`failureCount = 0` (the success reset it). -/
def cbHalfEx : CircuitBreaker :=
  runCalls freshBreaker
    [(0, .error boomErr), (1, .error boomErr), (2, .error boomErr),
     (3, .error boomErr), (4, .error boomErr), (60004, .ok ())]

/-- C1 is false on the code: in the reachable half-open state `cbHalfEx`
— reached after one earlier half-open call succeeded — a failed call
leaves the breaker in `half_open`, not `open` (the success reset
`failureCount` to 0, and `onFailure` only reopens once `failureCount`
reaches the threshold again). -/
theorem C1_counterexample :
    CircuitBreaker.Reach cbHalfEx ∧
    cbHalfEx.state = CircuitState.half_open ∧
    (CircuitBreaker.execute cbHalfEx 60005 (Except.error boomErr : Except JsError Unit)).1 =
      CircuitBreaker.ExecOutcome.failed boomErr ∧
    (CircuitBreaker.execute cbHalfEx 60005 (Except.error boomErr : Except JsError Unit)).2.state =
      CircuitState.half_open := by
  refine ⟨reach_runCalls _ _ (CircuitBreaker.Reach.init 5 60000), ?_, ?_, ?_⟩ <;> decide

/-- Helper invariant step: one `execute` call preserves "`open` implies
`failureCount ≥ threshold`". -/
theorem execute_open_invariant (cb : CircuitBreaker) (now : Nat) (op : Except JsError Unit)
    (ih : cb.state = .open_ → cb.threshold ≤ cb.failureCount) :
    (CircuitBreaker.execute cb now op).2.state = .open_ →
      (CircuitBreaker.execute cb now op).2.threshold ≤
        (CircuitBreaker.execute cb now op).2.failureCount := by
  cases hst : cb.state with
  | closed =>
    cases op with
    | ok v =>
      simp [CircuitBreaker.execute, CircuitBreaker.gate, CircuitBreaker.onSuccess, hst]
    | error e =>
      simp [CircuitBreaker.execute, CircuitBreaker.gate, CircuitBreaker.onFailure, hst]
      split_ifs with hth
      · intro _; simpa using hth
      · intro h1; simp at h1
  | open_ =>
    by_cases ht : now < cb.lastFailureTime + cb.resetTimeMs
    · simp [CircuitBreaker.execute, CircuitBreaker.gate, hst, ht]
      exact ih hst
    · cases op with
      | ok v =>
        simp [CircuitBreaker.execute, CircuitBreaker.gate, CircuitBreaker.onSuccess, hst, ht]
      | error e =>
        simp [CircuitBreaker.execute, CircuitBreaker.gate, CircuitBreaker.onFailure, hst, ht]
        split_ifs with hth
        · intro _; simpa using hth
        · intro h1; simp at h1
  | half_open =>
    cases op with
    | ok v =>
      simp [CircuitBreaker.execute, CircuitBreaker.gate, CircuitBreaker.onSuccess, hst]
      split_ifs with h3 <;> simp
    | error e =>
      simp [CircuitBreaker.execute, CircuitBreaker.gate, CircuitBreaker.onFailure, hst]
      split_ifs with hth
      · intro _; simpa using hth
      · intro h1; simp at h1

/-- C1 amended: a failed call in `half_open` reopens the breaker exactly
when the incremented `failureCount` reaches the threshold; and in every
reachable `open` state `failureCount ≥ threshold` holds, so the first
half-open failure with no intervening half-open success does reopen the
breaker, while after a half-open success (`failureCount` reset to 0) a
single failure leaves it `half_open` whenever the threshold exceeds 1. -/
theorem C1_amended_half_open_failure :
    (∀ (cb : CircuitBreaker) (now : Nat) (e : JsError),
        cb.state = .half_open →
        ((CircuitBreaker.execute cb now (Except.error e : Except JsError Unit)).2.state = .open_ ↔
          cb.threshold ≤ cb.failureCount + 1)) ∧
    (∀ cb : CircuitBreaker, CircuitBreaker.Reach cb →
        cb.state = .open_ → cb.threshold ≤ cb.failureCount) := by
  constructor
  · intro cb now e h
    simp [CircuitBreaker.execute, CircuitBreaker.gate, CircuitBreaker.onFailure, h]
    split_ifs with hth <;> simp [hth]
  · intro cb hreach
    induction hreach with
    | init t r => intro hs; simp at hs
    | step now op h ih => exact execute_open_invariant _ now op ih

/-- The half-open breaker used to witness C1's amended theorem: entered
`half_open` with its accumulated `failureCount` still at the
threshold. -/
def cbHalfFresh : CircuitBreaker :=
  { state := .half_open, failureCount := 5, lastFailureTime := 4,
    successCount := 0, threshold := 5, resetTimeMs := 60000 }

/-- Witness for the amended C1 theorem at a concrete input: a failure in
a freshly entered half-open state (failureCount still 5 ≥ threshold 5)
reopens the breaker. -/
theorem C1_amended_witness :
    (CircuitBreaker.execute cbHalfFresh 60005
        (Except.error boomErr : Except JsError Unit)).2.state = CircuitState.open_ :=
  (C1_amended_half_open_failure.1 cbHalfFresh 60005 boomErr rfl).mpr (by decide)

/-- C3: while `open` and within the reset timeout, `execute` fast-fails
with the breaker-open error and leaves the breaker untouched — the
wrapped operation is never invoked (`rejected` is the only outcome not
produced by running the operation); once `resetTimeout` has elapsed
since `lastFailureTime`, the gate moves the breaker to `half_open`
(resetting `successCount`) and the operation is invoked, its outcome
relayed. -/
theorem C3_open_rejects_then_half_open {α : Type} (cb : CircuitBreaker) (now : Nat)
    (op : Except JsError α) (h : cb.state = .open_) :
    (now < cb.lastFailureTime + cb.resetTimeMs →
      CircuitBreaker.execute cb now op = (.rejected, cb)) ∧
    (cb.lastFailureTime + cb.resetTimeMs ≤ now →
      CircuitBreaker.gate cb now =
        some { cb with state := .half_open, successCount := 0 } ∧
      (CircuitBreaker.execute cb now op).1 =
        (match op with
         | Except.ok v => CircuitBreaker.ExecOutcome.ok v
         | Except.error e => CircuitBreaker.ExecOutcome.failed e)) := by
  constructor
  · intro ht
    simp [CircuitBreaker.execute, CircuitBreaker.gate, h, ht]
  · intro ht
    have ht' : ¬ now < cb.lastFailureTime + cb.resetTimeMs := not_lt.mpr ht
    refine ⟨by simp [CircuitBreaker.gate, h, ht'], ?_⟩
    cases op with
    | ok v => simp [CircuitBreaker.execute, CircuitBreaker.gate, h, ht']
    | error e => simp [CircuitBreaker.execute, CircuitBreaker.gate, h, ht']

/-- An open-state breaker (tripped at time 0, reset timeout 100 ms) used
to witness C3. -/
def cbOpenW : CircuitBreaker :=
  { state := .open_, failureCount := 5, lastFailureTime := 0,
    successCount := 0, threshold := 5, resetTimeMs := 100 }

/-- Witness for C3 at concrete inputs: at time 50 the call is rejected
untouched; at time 100 the gate yields the half-open breaker and the
operation's success is relayed. -/
theorem C3_witness :
    CircuitBreaker.execute cbOpenW 50 (Except.ok ()) = (.rejected, cbOpenW) ∧
    CircuitBreaker.gate cbOpenW 100 =
      some { cbOpenW with state := .half_open, successCount := 0 } ∧
    (CircuitBreaker.execute cbOpenW 100 (Except.ok ())).1 =
      CircuitBreaker.ExecOutcome.ok () :=
  ⟨(C3_open_rejects_then_half_open cbOpenW 50 (Except.ok ()) rfl).1 (by decide),
   ((C3_open_rejects_then_half_open cbOpenW 100 (Except.ok ()) rfl).2 (by decide)).1,
   ((C3_open_rejects_then_half_open cbOpenW 100 (Except.ok ()) rfl).2 (by decide)).2⟩

/-! ## Retry handler (`RetryHandler` class) -/

/-- `RetryConfig` of the retry handler.  `jitterMs` is optional in the
source; `undefined` and `0` behave identically there (both falsy), so it
is embedded as a rational defaulting to 0.  Delays are rationals because
`Math.random()` scales the jitter. -/
structure RetryConfig where
  maxRetries : Nat
  baseDelayMs : Rat
  maxDelayMs : Rat
  exponentialBackoff : Bool
  jitterMs : Rat := 0
  retryableErrors : Option (List String) := none
  circuitBreakerThreshold : Option Nat := none
  circuitBreakerResetTimeMs : Option Nat := none
deriving Repr, DecidableEq

/-- The status codes `isRetryableError` treats as retryable. -/
def retryableStatusCodes : List Nat := [408, 429, 500, 502, 503, 504]

/-- `private isRetryableError(error, config)`: a `RetryableError`
instance answers by its own flag; otherwise the lowercased message is
probed for network-ish substrings, then the status code against the
retryable list, and finally the policy's custom retryable-substring
list (each custom needle lowercased). -/
def isRetryableError (e : JsError) (cfg : RetryConfig) : Bool :=
  match e.retryableFlag with
  | some b => b
  | none =>
    let msg := lowerChars e.message.toList
    if lowerIncludes msg "network" || lowerIncludes msg "timeout" ||
        lowerIncludes msg "connection" || lowerIncludes msg "econnreset" ||
        lowerIncludes msg "enotfound" then true
    else if (match e.statusCode with
             | some c => retryableStatusCodes.contains c
             | none => false) then true
    else
      match cfg.retryableErrors with
      | some lst => lst.any (fun re => charsContains msg (lowerChars re.toList))
      | none => false

/-- Message-substring tail of `static categorizeError` (reached when no
status-code test matched). -/
def categorizeByMessage (msg : List Char) : ErrorType :=
  if lowerIncludes msg "timeout" then .timeout
  else if lowerIncludes msg "network" || lowerIncludes msg "connection" ||
      lowerIncludes msg "econnreset" || lowerIncludes msg "enotfound" then .network
  else if lowerIncludes msg "validation" || lowerIncludes msg "invalid" then .validation
  else .unknown

/-- `static categorizeError(error)`.  With an absent status code every
numeric comparison in the source is false (`undefined` comparisons), so
classification falls through to the message tests. -/
def categorizeError (e : JsError) : ErrorType :=
  let msg := lowerChars e.message.toList
  match e.statusCode with
  | some c =>
    if c = 401 ∨ c = 403 then .authentication
    else if c = 429 then .rate_limit
    else if 400 ≤ c ∧ c < 500 then .client
    else if 500 ≤ c then .server
    else categorizeByMessage msg
  | none => categorizeByMessage msg

/-- `private calculateDelay(attempt, config)`.  `rnd` is the
`Math.random()` draw of this call (in `[0, 1)`); the source's falsy test
`if (config.jitterMs)` is `jitterMs ≠ 0`. -/
def calculateDelay (cfg : RetryConfig) (attempt : Nat) (rnd : Rat) : Rat :=
  let delay := if cfg.exponentialBackoff then
      min (cfg.baseDelayMs * 2 ^ (attempt - 1)) cfg.maxDelayMs
    else cfg.baseDelayMs
  let delay := if cfg.jitterMs ≠ 0 then delay + rnd * cfg.jitterMs else delay
  min delay cfg.maxDelayMs

/-- `RetryResult` of `executeWithRetry`; `delays` additionally records
the argument of every `this.sleep(delay)` call, in order (`totalTime` is
wall-clock time and is not modelled). -/
structure RetryResult (α : Type) where
  success : Bool
  data : Option α := none
  error : Option JsError := none
  attempts : Nat
  delays : List Rat := []
deriving Repr, DecidableEq

/-- The `for (attempts = 1; attempts <= maxRetries + 1; attempts++)`
loop of `executeWithRetry`, without a circuit-breaker key (the
`circuitBreaker ? ... : await operation()` else-branch).  `op n` is the
outcome of the n-th invocation of the operation, `le` the `lastError`
variable, `ds` the sleeps recorded so far (reversed).  `fuel` counts the
remaining loop iterations (`maxRetries + 2 - attempt`); the `fuel = 0`
case is the loop's natural exit, unreachable from the initial call. -/
def retryLoop (cfg : RetryConfig) (op : Nat → Except JsError α) (rnd : Nat → Rat) :
    Nat → Nat → Option JsError → List Rat → RetryResult α
  | attempt, 0, le, ds =>
    { success := false, error := le, attempts := attempt, delays := ds.reverse }
  | attempt, fuel + 1, _, ds =>
    match op attempt with
    | .ok v =>
      { success := true, data := some v, attempts := attempt, delays := ds.reverse }
    | .error e =>
      if ¬ isRetryableError e cfg then
        { success := false, error := some e, attempts := attempt, delays := ds.reverse }
      else if cfg.maxRetries < attempt then
        { success := false, error := some e, attempts := attempt, delays := ds.reverse }
      else
        retryLoop cfg op rnd (attempt + 1) fuel (some e)
          (calculateDelay cfg attempt (rnd attempt) :: ds)

/-- `async executeWithRetry(operation, config)` (no circuit-breaker
key). -/
def executeWithRetry (cfg : RetryConfig) (op : Nat → Except JsError α)
    (rnd : Nat → Rat) : RetryResult α :=
  retryLoop cfg op rnd 1 (cfg.maxRetries + 1) none []

/-- The loop's final attempt count never drops below the attempt it
starts at. -/
theorem retryLoop_attempts_ge (cfg : RetryConfig) (op : Nat → Except JsError α)
    (rnd : Nat → Rat) :
    ∀ (fuel attempt : Nat) (le : Option JsError) (ds : List Rat),
      attempt ≤ (retryLoop cfg op rnd attempt fuel le ds).attempts := by
  intro fuel
  induction fuel with
  | zero => intro attempt le ds; simp [retryLoop]
  | succ f ih =>
    intro attempt le ds
    simp only [retryLoop]
    cases hop : op attempt with
    | ok v => simp
    | error e =>
      by_cases hr : isRetryableError e cfg
      · by_cases hm : cfg.maxRetries < attempt
        · simp [hr, hm]
        · simp only [hr, hm, not_true, if_false, if_true, ite_false, ite_true]
          calc attempt ≤ attempt + 1 := Nat.le_succ attempt
            _ ≤ _ := ih (attempt + 1) (some e) _
      · simp [hr]

/-- Started with `attempt + fuel = maxRetries + 2` (the initial call has
`attempt = 1`, `fuel = maxRetries + 1`), the loop never reports more
than `maxRetries + 1` attempts. -/
theorem retryLoop_attempts_le (cfg : RetryConfig) (op : Nat → Except JsError α)
    (rnd : Nat → Rat) :
    ∀ (fuel attempt : Nat) (le : Option JsError) (ds : List Rat),
      1 ≤ fuel → attempt + fuel = cfg.maxRetries + 2 →
      (retryLoop cfg op rnd attempt fuel le ds).attempts ≤ cfg.maxRetries + 1 := by
  intro fuel
  induction fuel with
  | zero => intro _ _ _ h1 _; exact absurd h1 (by omega)
  | succ f ih =>
    intro attempt le ds _ h2
    simp only [retryLoop]
    cases hop : op attempt with
    | ok v => simp; omega
    | error e =>
      by_cases hr : isRetryableError e cfg
      · by_cases hm : cfg.maxRetries < attempt
        · simp [hr, hm]; omega
        · simp only [hr, hm, not_true, if_false, if_true, ite_false, ite_true]
          exact ih (attempt + 1) (some e) _ (by omega) (by omega)
      · simp [hr]; omega

/-- Every attempt strictly before the final one failed with an error the
policy classified retryable. -/
theorem retryLoop_retryable (cfg : RetryConfig) (op : Nat → Except JsError α)
    (rnd : Nat → Rat) :
    ∀ (fuel attempt : Nat) (le : Option JsError) (ds : List Rat) (n : Nat),
      attempt ≤ n → n < (retryLoop cfg op rnd attempt fuel le ds).attempts →
      ∃ e, op n = Except.error e ∧ isRetryableError e cfg = true := by
  intro fuel
  induction fuel with
  | zero =>
    intro attempt le ds n h1 h2
    simp [retryLoop] at h2
    omega
  | succ f ih =>
    intro attempt le ds n h1 h2
    simp only [retryLoop] at h2
    cases hop : op attempt with
    | ok v => rw [hop] at h2; simp at h2; omega
    | error e =>
      rw [hop] at h2
      by_cases hr : isRetryableError e cfg
      · by_cases hm : cfg.maxRetries < attempt
        · simp [hr, hm] at h2; omega
        · simp only [hr, hm, not_true, if_false, if_true, ite_false, ite_true] at h2
          rcases Nat.eq_or_lt_of_le h1 with heq | hlt
          · exact ⟨e, heq ▸ hop, by simpa using hr⟩
          · exact ih (attempt + 1) (some e) _ n hlt h2
      · simp [hr] at h2; omega

/-- If every attempt fails with a retryable error, the loop consumes all
attempts and fails with `attempts = maxRetries + 1`. -/
theorem retryLoop_allfail (cfg : RetryConfig) (op : Nat → Except JsError α)
    (rnd : Nat → Rat)
    (hall : ∀ n, ∃ e, op n = Except.error e ∧ isRetryableError e cfg = true) :
    ∀ (fuel attempt : Nat) (le : Option JsError) (ds : List Rat),
      1 ≤ fuel → attempt + fuel = cfg.maxRetries + 2 →
      (retryLoop cfg op rnd attempt fuel le ds).success = false ∧
      (retryLoop cfg op rnd attempt fuel le ds).attempts = cfg.maxRetries + 1 := by
  intro fuel
  induction fuel with
  | zero => intro _ _ _ h1 _; exact absurd h1 (by omega)
  | succ f ih =>
    intro attempt le ds _ h2
    obtain ⟨e, hop, hr⟩ := hall attempt
    simp only [retryLoop]
    rw [hop]
    by_cases hm : cfg.maxRetries < attempt
    · simp [hr, hm]; omega
    · simp only [hr, hm, not_true, if_false, if_true, ite_false, ite_true]
      exact ih (attempt + 1) (some e) _ (by omega) (by omega)

/-- The recorded sleeps are exactly one `calculateDelay cfg k (rnd k)`
for every attempt `k` from the starting one up to (excluding) the final
one, appended to the accumulator. -/
theorem retryLoop_delays (cfg : RetryConfig) (op : Nat → Except JsError α)
    (rnd : Nat → Rat) :
    ∀ (fuel attempt : Nat) (le : Option JsError) (ds : List Rat),
      (retryLoop cfg op rnd attempt fuel le ds).delays =
        ds.reverse ++ (List.range' attempt
            ((retryLoop cfg op rnd attempt fuel le ds).attempts - attempt)).map
          (fun k => calculateDelay cfg k (rnd k)) := by
  intro fuel
  induction fuel with
  | zero => intro attempt le ds; simp [retryLoop]
  | succ f ih =>
    intro attempt le ds
    simp only [retryLoop]
    cases hop : op attempt with
    | ok v => simp
    | error e =>
      by_cases hr : isRetryableError e cfg
      · by_cases hm : cfg.maxRetries < attempt
        · simp [hr, hm]
        · simp only [hr, hm, not_true, if_false, if_true, ite_false, ite_true]
          have hge := retryLoop_attempts_ge cfg op rnd f (attempt + 1) (some e)
            (calculateDelay cfg attempt (rnd attempt) :: ds)
          rw [ih (attempt + 1) (some e) (calculateDelay cfg attempt (rnd attempt) :: ds)]
          have hsub : (retryLoop cfg op rnd (attempt + 1) f (some e)
              (calculateDelay cfg attempt (rnd attempt) :: ds)).attempts - attempt =
              ((retryLoop cfg op rnd (attempt + 1) f (some e)
                (calculateDelay cfg attempt (rnd attempt) :: ds)).attempts - (attempt + 1)) + 1 := by
            omega
          rw [hsub, List.range'_succ]
          simp
      · simp [hr]

/-- C2: `executeWithRetry` never attempts the operation more than
`maxRetries + 1` times; every attempt before the final one failed with
an error classified retryable; with `maxRetries = 2`, retryable failures
on attempts 1 and 2 followed by a success on attempt 3 yield
`success = true, attempts = 3`; and an operation that always fails
retryably yields `success = false, attempts = maxRetries + 1`. -/
theorem C2_executeWithRetry_attempts {α : Type} (cfg : RetryConfig)
    (op : Nat → Except JsError α) (rnd : Nat → Rat) :
    (executeWithRetry cfg op rnd).attempts ≤ cfg.maxRetries + 1 ∧
    (∀ n, 1 ≤ n → n < (executeWithRetry cfg op rnd).attempts →
      ∃ e, op n = Except.error e ∧ isRetryableError e cfg = true) ∧
    (∀ (v : α) (e1 e2 : JsError), cfg.maxRetries = 2 →
      op 1 = Except.error e1 → isRetryableError e1 cfg = true →
      op 2 = Except.error e2 → isRetryableError e2 cfg = true →
      op 3 = Except.ok v →
      (executeWithRetry cfg op rnd).success = true ∧
      (executeWithRetry cfg op rnd).attempts = 3) ∧
    ((∀ n, ∃ e, op n = Except.error e ∧ isRetryableError e cfg = true) →
      (executeWithRetry cfg op rnd).success = false ∧
      (executeWithRetry cfg op rnd).attempts = cfg.maxRetries + 1) := by
  refine ⟨?_, ?_, ?_, ?_⟩
  · exact retryLoop_attempts_le cfg op rnd (cfg.maxRetries + 1) 1 none [] (by omega) (by omega)
  · intro n h1 hn
    exact retryLoop_retryable cfg op rnd (cfg.maxRetries + 1) 1 none [] n h1 hn
  · intro v e1 e2 hm h1 hr1 h2 hr2 h3
    simp only [executeWithRetry, hm]
    constructor <;>
      simp [retryLoop, h1, hr1, h2, hr2, h3, hm]
  · intro hall
    exact retryLoop_allfail cfg op rnd hall (cfg.maxRetries + 1) 1 none [] (by omega) (by omega)

/-- A plain retryable network error. -/
def netErr : JsError := { message := "network down" }

/-- Retry policy with `maxRetries = 2` and no delays, for witnesses. -/
def cfgM2 : RetryConfig :=
  { maxRetries := 2, baseDelayMs := 0, maxDelayMs := 0, exponentialBackoff := false }

/-- Operation failing retryably on attempts 1 and 2 and succeeding on
attempt 3. -/
def opWinAt3 : Nat → Except JsError Nat :=
  fun n => if n ≤ 2 then .error netErr else .ok 7

/-- Operation failing retryably on every attempt. -/
def opAlwaysFail : Nat → Except JsError Nat :=
  fun _ => .error netErr

/-- A constant-zero `Math.random()` stream. -/
def zeroRnd : Nat → Rat := fun _ => 0

/-- Witness for C2 at concrete inputs: success on attempt 3 of 3, and
exhaustion at `maxRetries + 1 = 3` attempts when every attempt fails. -/
theorem C2_witness :
    (executeWithRetry cfgM2 opWinAt3 zeroRnd).success = true ∧
    (executeWithRetry cfgM2 opWinAt3 zeroRnd).attempts = 3 ∧
    (executeWithRetry cfgM2 opAlwaysFail zeroRnd).success = false ∧
    (executeWithRetry cfgM2 opAlwaysFail zeroRnd).attempts = 3 := by
  have h3 := (C2_executeWithRetry_attempts cfgM2 opWinAt3 zeroRnd).2.2.1 7 netErr netErr
    rfl rfl (by decide) rfl (by decide) rfl
  have h4 := (C2_executeWithRetry_attempts cfgM2 opAlwaysFail zeroRnd).2.2.2
    (fun n => ⟨netErr, rfl, by decide⟩)
  exact ⟨h3.1, h3.2, h4.1, h4.2⟩

/-- C7: for every reached attempt `n ≥ 2`, the delay slept before
attempt `n` (recorded at index `n - 2`; attempt 1 sleeps nothing, and
there are exactly `attempts - 1` sleeps) is
`min(baseDelay * 2^(n-2), maxDelay) + j` under exponential backoff and
`baseDelay + j` otherwise, capped at `maxDelay`, where `j` is a jitter
value in `[0, jitterMs]`. -/
theorem C7_backoff_delay {α : Type} (cfg : RetryConfig) (op : Nat → Except JsError α)
    (rnd : Nat → Rat) (hrnd : ∀ k, 0 ≤ rnd k ∧ rnd k < 1) (hjm : 0 ≤ cfg.jitterMs) :
    (executeWithRetry cfg op rnd).delays.length =
      (executeWithRetry cfg op rnd).attempts - 1 ∧
    (∀ n, 2 ≤ n → n ≤ (executeWithRetry cfg op rnd).attempts →
      ∃ j, 0 ≤ j ∧ j ≤ cfg.jitterMs ∧
        (executeWithRetry cfg op rnd).delays[n - 2]? =
          some (min ((if cfg.exponentialBackoff then
              min (cfg.baseDelayMs * 2 ^ (n - 2)) cfg.maxDelayMs
            else cfg.baseDelayMs) + j) cfg.maxDelayMs)) := by
  have hd := retryLoop_delays cfg op rnd (cfg.maxRetries + 1) 1 none []
  simp only [executeWithRetry] at *
  constructor
  · rw [hd]; simp
  · intro n h2 hn
    refine ⟨if cfg.jitterMs = 0 then 0 else rnd (n - 1) * cfg.jitterMs, ?_, ?_, ?_⟩
    · split_ifs with h0
      · exact le_refl 0
      · exact mul_nonneg (hrnd (n - 1)).1 hjm
    · split_ifs with h0
      · simp [h0]
      · exact mul_le_of_le_one_left hjm (le_of_lt (hrnd (n - 1)).2)
    · rw [hd]
      simp only [List.reverse_nil, List.nil_append, List.getElem?_map]
      rw [List.getElem?_range' 1 1 (by omega)]
      have h1 : 1 + 1 * (n - 2) = n - 1 := by omega
      rw [h1]
      simp only [Option.map_some']
      congr 1
      have hsub : n - 1 - 1 = n - 2 := by omega
      rw [calculateDelay, hsub]
      by_cases hj : cfg.jitterMs = 0 <;> simp [hj]

/-- Exponential-backoff policy with jitter, for the C7 witness
(`DEFAULT_RETRY_CONFIGS.api` shape). -/
def cfgExp : RetryConfig :=
  { maxRetries := 2, baseDelayMs := 2000, maxDelayMs := 8000,
    exponentialBackoff := true, jitterMs := 1000 }

/-- A constant one-half `Math.random()` stream. -/
def halfRnd : Nat → Rat := fun _ => 1 / 2

/-- Witness for C7 at a concrete input: the delay slept before attempt 2
of an always-failing run under `cfgExp`. -/
theorem C7_witness :
    2 ≤ (executeWithRetry cfgExp opAlwaysFail halfRnd).attempts ∧
    ∃ j, 0 ≤ j ∧ j ≤ cfgExp.jitterMs ∧
      (executeWithRetry cfgExp opAlwaysFail halfRnd).delays[0]? =
        some (min ((if cfgExp.exponentialBackoff then
            min (cfgExp.baseDelayMs * 2 ^ 0) cfgExp.maxDelayMs
          else cfgExp.baseDelayMs) + j) cfgExp.maxDelayMs) := by
  have hatt : 2 ≤ (executeWithRetry cfgExp opAlwaysFail halfRnd).attempts := by decide
  refine ⟨hatt, ?_⟩
  exact (C7_backoff_delay cfgExp opAlwaysFail halfRnd
    (fun k => ⟨by norm_num [halfRnd], by norm_num [halfRnd]⟩)
    (by norm_num [cfgExp])).2 2 (by norm_num) hatt

/-- The error refuting C4: HTTP 401 whose message mentions the network. -/
def authNetErr : JsError :=
  { message := "Network error during authentication", statusCode := some 401 }

/-- Retry policy with `maxRetries = 1` and no delays. -/
def cfgM1 : RetryConfig :=
  { maxRetries := 1, baseDelayMs := 0, maxDelayMs := 0, exponentialBackoff := false }

/-- C4 is false on the code: a 401 error is classified `authentication`,
yet because `isRetryableError` probes the message substrings before the
status code, this 401 error with a network-ish message is retryable and
`executeWithRetry` retries it (2 attempts with `maxRetries = 1` instead
of stopping after the first). -/
theorem C4_counterexample :
    categorizeError authNetErr = ErrorType.authentication ∧
    isRetryableError authNetErr cfgM1 = true ∧
    (executeWithRetry cfgM1 (fun _ => (Except.error authNetErr : Except JsError Unit))
      zeroRnd).attempts = 2 := by
  refine ⟨?_, ?_, ?_⟩ <;> decide

/-- C4 amended: 401/403 are always classified `authentication`, and the
other 4xx codes apart from 401/403/429 are classified `client`
(`categorizeError` tests the status first); but such errors are
non-retryable — and hence never retried by `executeWithRetry` — only
provided the error is not a `RetryableError` instance, its message
contains none of the five network-ish substrings, its status is not in
the retryable list (408/429/5xx), and no custom retryable-substring of
the policy matches the message. -/
theorem C4_amended_auth_client (e : JsError) (cfg : RetryConfig) (c : Nat)
    (hc : e.statusCode = some c) :
    ((c = 401 ∨ c = 403) → categorizeError e = ErrorType.authentication) ∧
    (400 ≤ c → c < 500 → c ≠ 401 → c ≠ 403 → c ≠ 429 →
      categorizeError e = ErrorType.client) ∧
    (e.retryableFlag = none →
      lowerIncludes (lowerChars e.message.toList) "network" = false →
      lowerIncludes (lowerChars e.message.toList) "timeout" = false →
      lowerIncludes (lowerChars e.message.toList) "connection" = false →
      lowerIncludes (lowerChars e.message.toList) "econnreset" = false →
      lowerIncludes (lowerChars e.message.toList) "enotfound" = false →
      retryableStatusCodes.contains c = false →
      (∀ lst, cfg.retryableErrors = some lst →
        lst.any (fun re => charsContains (lowerChars e.message.toList)
          (lowerChars re.toList)) = false) →
      isRetryableError e cfg = false ∧
      ∀ (op : Nat → Except JsError Unit) (rnd : Nat → Rat),
        op 1 = Except.error e →
        (executeWithRetry cfg op rnd).attempts = 1 ∧
        (executeWithRetry cfg op rnd).success = false) := by
  refine ⟨?_, ?_, ?_⟩
  · intro h
    simp [categorizeError, hc, h]
  · intro h400 h500 h401 h403 h429
    simp [categorizeError, hc, h401, h403, h429, h400, h500]
  · intro hflag m1 m2 m3 m4 m5 hcode hcustom
    have hret : isRetryableError e cfg = false := by
      simp only [isRetryableError, hflag, hc, m1, m2, m3, m4, m5, hcode]
      simp only [Bool.or_self, Bool.false_eq_true, if_false, ite_false]
      cases hre : cfg.retryableErrors with
      | none => rfl
      | some lst => exact hcustom lst hre
    refine ⟨hret, ?_⟩
    intro op rnd hop1
    constructor <;> simp [executeWithRetry, retryLoop, hop1, hret]

/-- A plain 403 error with a harmless message, for the C4 witness. -/
def forbiddenErr : JsError := { message := "Forbidden", statusCode := some 403 }

/-- Witness for the amended C4 theorem at a concrete input: a 403 with a
clean message is classified `authentication`, is not retryable, and is
surfaced after a single attempt. -/
theorem C4_amended_witness :
    categorizeError forbiddenErr = ErrorType.authentication ∧
    isRetryableError forbiddenErr cfgM1 = false ∧
    (executeWithRetry cfgM1 (fun _ => (Except.error forbiddenErr : Except JsError Unit))
      zeroRnd).attempts = 1 := by
  have h := C4_amended_auth_client forbiddenErr cfgM1 403 rfl
  have h3 := h.2.2 rfl (by decide) (by decide) (by decide) (by decide) (by decide)
    (by decide) (fun lst hl => by simp [cfgM1] at hl)
  exact ⟨h.1 (Or.inr rfl), h3.1,
    (h3.2 (fun _ => (Except.error forbiddenErr : Except JsError Unit)) zeroRnd rfl).1⟩

/-! ## Content scheduler (`ContentScheduler` class) -/

/-- Queue item priorities. -/
inductive Priority
  | low
  | medium
  | high
  | urgent
deriving Repr, DecidableEq

/-- The `priorityOrder = { urgent: 4, high: 3, medium: 2, low: 1 }`
lookup used by both sort comparators. -/
def priorityOrder : Priority → Int
  | .urgent => 4
  | .high => 3
  | .medium => 2
  | .low => 1

/-- `QueuedContent.status` values. -/
inductive QStatus
  | pending
  | testing
  | ready
  | publishing
  | published
  | failed
deriving Repr, DecidableEq

/-- The per-item scheduler state observed by C5: status, `retryCount`
(`undefined` is 0, its initial value) and `scheduledFor`. -/
structure SchedItem where
  status : QStatus
  retryCount : Nat
  scheduledFor : Nat
deriving Repr, DecidableEq

/-- The scheduler configuration fields C5 depends on. -/
structure SchedConfig where
  maxRetries : Option Nat := none
  retryFailed : Bool := false
deriving Repr, DecidableEq

/-- `this.scheduleConfig.maxRetries || 3`: the configured maximum with
JavaScript falsy semantics (`undefined` and `0` both give 3). -/
def effectiveMaxRetries (cfg : SchedConfig) : Nat :=
  match cfg.maxRetries with
  | some m => if m = 0 then 3 else m
  | none => 3

/-- The scheduler-driven transitions of one queue item:
`testContent` (status `testing`, then `ready` when every target is
compatible, else back to `pending`), `publishAllReady` (a due `ready`
item becomes `publishing`; then `published` when all publish results
succeed, `failed` keeping `retryCount` when some result fails, and
`failed` with `retryCount + 1` when `publishToMultiple` throws), and
`retryFailedContent` (re-queues a failed item with
`retryCount < maxRetries || 3` as `pending`, scheduled 5 minutes out,
leaving `retryCount` unchanged). -/
inductive SchedStep (cfg : SchedConfig) : Nat → SchedItem → SchedItem → Prop
  | startTest (now : Nat) (i : SchedItem) : i.status = .pending →
      SchedStep cfg now i { i with status := .testing }
  | testReady (now : Nat) (i : SchedItem) : i.status = .testing →
      SchedStep cfg now i { i with status := .ready }
  | testPending (now : Nat) (i : SchedItem) : i.status = .testing →
      SchedStep cfg now i { i with status := .pending }
  | startPublish (now : Nat) (i : SchedItem) : i.status = .ready →
      i.scheduledFor ≤ now →
      SchedStep cfg now i { i with status := .publishing }
  | publishOk (now : Nat) (i : SchedItem) : i.status = .publishing →
      SchedStep cfg now i { i with status := .published }
  | publishPartial (now : Nat) (i : SchedItem) : i.status = .publishing →
      SchedStep cfg now i { i with status := .failed }
  | publishThrow (now : Nat) (i : SchedItem) : i.status = .publishing →
      SchedStep cfg now i { i with status := .failed, retryCount := i.retryCount + 1 }
  | requeue (now : Nat) (i : SchedItem) : cfg.retryFailed = true →
      i.status = .failed → i.retryCount < effectiveMaxRetries cfg →
      SchedStep cfg now i { i with status := .pending, scheduledFor := now + 300000 }

/-- Item states reachable from `addToQueue` (status `pending`, no
`retryCount`) under scheduler-driven transitions. -/
inductive SchedReach (cfg : SchedConfig) : SchedItem → Prop
  | init (t0 : Nat) :
      SchedReach cfg { status := .pending, retryCount := 0, scheduledFor := t0 }
  | step {i j : SchedItem} (now : Nat) :
      SchedReach cfg i → SchedStep cfg now i j → SchedReach cfg j

/-- The effective maximum is always at least 1. -/
theorem one_le_effectiveMaxRetries (cfg : SchedConfig) :
    1 ≤ effectiveMaxRetries cfg := by
  cases h : cfg.maxRetries with
  | none => simp [effectiveMaxRetries, h]
  | some m =>
    simp only [effectiveMaxRetries, h]
    split_ifs <;> omega

/-- Reachability invariant for C5: `retryCount` never exceeds the
effective maximum, and is strictly below it while the item is neither
terminally `failed` nor `published`. -/
theorem sched_retry_invariant (cfg : SchedConfig) (i : SchedItem)
    (h : SchedReach cfg i) :
    i.retryCount ≤ effectiveMaxRetries cfg ∧
    (i.status ≠ .failed → i.status ≠ .published →
      i.retryCount < effectiveMaxRetries cfg) := by
  have hmax := one_le_effectiveMaxRetries cfg
  induction h with
  | init t0 => exact ⟨by simp, fun _ _ => by simp; omega⟩
  | step now hr hs ih =>
    cases hs with
    | startTest hp => exact ⟨ih.1, fun _ _ => ih.2 (by simp [hp]) (by simp [hp])⟩
    | testReady hp => exact ⟨ih.1, fun _ _ => ih.2 (by simp [hp]) (by simp [hp])⟩
    | testPending hp => exact ⟨ih.1, fun _ _ => ih.2 (by simp [hp]) (by simp [hp])⟩
    | startPublish hp hd => exact ⟨ih.1, fun _ _ => ih.2 (by simp [hp]) (by simp [hp])⟩
    | publishOk hp => exact ⟨ih.1, fun _ hcon => absurd rfl hcon⟩
    | publishPartial hp => exact ⟨ih.1, fun hcon _ => absurd rfl hcon⟩
    | publishThrow hp =>
      have hlt := ih.2 (by simp [hp]) (by simp [hp])
      exact ⟨by simp; omega, fun hcon _ => absurd rfl hcon⟩
    | requeue hrf hf hlt =>
      exact ⟨le_of_lt hlt, fun _ _ => hlt⟩

/-- Scheduler configuration refuting C5: retrying enabled, maximum 3. -/
def cfgSched3 : SchedConfig := { maxRetries := some 3, retryFailed := true }

/-- C5 is false on the code: an item that failed because some publish
result was unsuccessful (no exception) is reachable with
`retryCount = 0`, and `retryFailedContent` re-queues it as `pending`
with `retryCount` still 0 — re-queueing does not increment
`retryCount` (the increment happens only in `publishAllReady`'s catch
branch, on a thrown publish). -/
theorem C5_counterexample :
    SchedReach cfgSched3 { status := .failed, retryCount := 0, scheduledFor := 0 } ∧
    SchedStep cfgSched3 1000 { status := .failed, retryCount := 0, scheduledFor := 0 }
      { status := .pending, retryCount := 0, scheduledFor := 301000 } := by
  constructor
  · have h0 := @SchedReach.init cfgSched3 0
    have h1 := SchedReach.step 0 h0 (SchedStep.startTest 0 _ rfl)
    have h2 := SchedReach.step 0 h1 (SchedStep.testReady 0 _ rfl)
    have h3 := SchedReach.step 0 h2 (SchedStep.startPublish 0 _ rfl (by simp))
    exact SchedReach.step 0 h3 (SchedStep.publishPartial 0 _ rfl)
  · exact SchedStep.requeue 1000 _ rfl rfl (by decide)

/-- C5 amended: along every scheduler trace from `addToQueue`,
`retryCount` never exceeds the effective configured maximum
(`maxRetries || 3`), and an item whose `retryCount` has reached that
maximum while `failed` is terminally stuck — no scheduler transition
(in particular no re-queue) applies to it.  Re-queueing itself,
however, leaves `retryCount` unchanged; the increment happens when a
publish throws. -/
theorem C5_amended_retry_bound (cfg : SchedConfig) (i : SchedItem)
    (h : SchedReach cfg i) :
    i.retryCount ≤ effectiveMaxRetries cfg ∧
    (i.status = .failed → effectiveMaxRetries cfg ≤ i.retryCount →
      ∀ (now : Nat) (j : SchedItem), ¬ SchedStep cfg now i j) := by
  refine ⟨(sched_retry_invariant cfg i h).1, ?_⟩
  intro hf hge now j hs
  cases hs with
  | startTest hp => simp [hf] at hp
  | testReady hp => simp [hf] at hp
  | testPending hp => simp [hf] at hp
  | startPublish hp hd => simp [hf] at hp
  | publishOk hp => simp [hf] at hp
  | publishPartial hp => simp [hf] at hp
  | publishThrow hp => simp [hf] at hp
  | requeue hrf hp hlt => omega

/-- Scheduler configuration with maximum 1, for the C5 witness. -/
def cfgSched1 : SchedConfig := { maxRetries := some 1, retryFailed := true }

/-- A terminally failed item at the maximum, reachable under
`cfgSched1`. -/
def failedAtMax : SchedItem := { status := .failed, retryCount := 1, scheduledFor := 0 }

/-- The item `failedAtMax` is reachable: one full
test/publish/throw cycle. -/
theorem failedAtMax_reachable : SchedReach cfgSched1 failedAtMax := by
  have h0 := @SchedReach.init cfgSched1 0
  have h1 := SchedReach.step 0 h0 (SchedStep.startTest 0 _ rfl)
  have h2 := SchedReach.step 0 h1 (SchedStep.testReady 0 _ rfl)
  have h3 := SchedReach.step 0 h2 (SchedStep.startPublish 0 _ rfl (by simp))
  exact SchedReach.step 0 h3 (SchedStep.publishThrow 0 _ rfl)

/-- Witness for the amended C5 theorem at a concrete input: the
reachable item `failedAtMax` respects the bound and cannot be
re-queued. -/
theorem C5_amended_witness :
    failedAtMax.retryCount ≤ effectiveMaxRetries cfgSched1 ∧
    ¬ SchedStep cfgSched1 50 failedAtMax
      { status := .pending, retryCount := 1, scheduledFor := 300050 } :=
  ⟨(C5_amended_retry_bound cfgSched1 failedAtMax failedAtMax_reachable).1,
   (C5_amended_retry_bound cfgSched1 failedAtMax failedAtMax_reachable).2 rfl
     (by decide) 50 { status := .pending, retryCount := 1, scheduledFor := 300050 }⟩

/-- A queued content item as observed by `getReadyContent`:
identification, priority, status and the timestamps.  The queue itself
is the insertion-ordered list of the `Map`'s values. -/
structure QC where
  id : Nat
  priority : Priority
  status : QStatus
  scheduledFor : Nat
  createdAt : Nat
deriving Repr, DecidableEq

/-- The comparator of `getReadyContent`:
`priorityOrder[b.priority] - priorityOrder[a.priority]` when nonzero,
else `a.scheduledFor - b.scheduledFor`. -/
def qcCompare (a b : QC) : Int :=
  if priorityOrder b.priority - priorityOrder a.priority ≠ 0 then
    priorityOrder b.priority - priorityOrder a.priority
  else (a.scheduledFor : Int) - (b.scheduledFor : Int)

/-- `a` sorts no later than `b` under the comparator.  A stable
comparator sort (JavaScript `Array.prototype.sort`) places `a` before
`b` exactly when `qcCompare a b ≤ 0`, keeping input order on ties, which
is what `List.insertionSort` with this relation computes. -/
def qcLe (a b : QC) : Prop := qcCompare a b ≤ 0

instance : DecidableRel qcLe := fun a b => Int.decLe _ _

/-- `getReadyContent()`: the `ready` items due at `now`, sorted by the
comparator (priority descending, then `scheduledFor` ascending,
stable). -/
def getReadyContent (now : Nat) (queue : List QC) : List QC :=
  List.insertionSort qcLe
    (queue.filter (fun c => decide (c.status = .ready) && decide (c.scheduledFor ≤ now)))

/-- The ordering C6 claims: strictly higher priority first, and within
equal priority non-decreasing `scheduledFor`. -/
def readyRel (a b : QC) : Prop :=
  priorityOrder b.priority < priorityOrder a.priority ∨
  (priorityOrder a.priority = priorityOrder b.priority ∧ a.scheduledFor ≤ b.scheduledFor)

/-- The comparator ordering is exactly the claimed ordering. -/
theorem qcLe_iff (a b : QC) : qcLe a b ↔ readyRel a b := by
  unfold qcLe qcCompare readyRel
  split_ifs with h <;> constructor <;> intro h1 <;> omega

instance : IsTotal QC qcLe :=
  ⟨fun a b => by
    simp only [qcLe_iff, readyRel]
    omega⟩

instance : IsTrans QC qcLe :=
  ⟨fun a b c => by
    simp only [qcLe_iff, readyRel]
    omega⟩

/-- Ready items of the C6 batch-ordering example, submitted in the order
low, urgent, medium, all due. -/
def qLow : QC := { id := 1, priority := .low, status := .ready, scheduledFor := 0, createdAt := 0 }

/-- Urgent example item. -/
def qUrgent : QC :=
  { id := 2, priority := .urgent, status := .ready, scheduledFor := 0, createdAt := 1 }

/-- Medium example item. -/
def qMedium : QC :=
  { id := 3, priority := .medium, status := .ready, scheduledFor := 0, createdAt := 2 }

/-- C6: `getReadyContent` returns exactly the queued items that are
`ready` and due (`scheduledFor ≤ now`) — as a permutation of the
filtered queue — ordered by priority descending and, within equal
priority, by `scheduledFor` ascending; in particular ready items
submitted with priorities [low, urgent, medium] come back as
[urgent, medium, low]. -/
theorem C6_getReadyContent_order :
    (∀ (now : Nat) (queue : List QC),
      (getReadyContent now queue).Perm
        (queue.filter (fun c => decide (c.status = .ready) && decide (c.scheduledFor ≤ now))) ∧
      (getReadyContent now queue).Pairwise readyRel) ∧
    getReadyContent 0 [qLow, qUrgent, qMedium] = [qUrgent, qMedium, qLow] := by
  refine ⟨fun now queue => ⟨List.perm_insertionSort qcLe _, ?_⟩, by decide⟩
  exact (List.sorted_insertionSort qcLe _).imp (fun {a b} h => (qcLe_iff a b).mp h)

/-- The `PlatformType` union of target identifiers. -/
inductive PlatformType
  | webflow
  | wordpress
  | ghost
  | medium
  | reddit
  | blogger
  | instagram
  | linkedin
  | facebook
  | twitter
  | tumblr
  | substack
deriving Repr, DecidableEq

/-- An `OptimalTime` slot: day of week (0–6, Sunday-based), hour (0–23)
and engagement score. -/
structure OptimalTime where
  dayOfWeek : Nat
  hour : Nat
  engagement : Nat
deriving Repr, DecidableEq

/-- JavaScript `Date.prototype.getDay` on epoch milliseconds (UTC;
epoch day 0 was a Thursday, i.e. day 4). -/
def jsGetDay (t : Nat) : Nat := (t / 86400000 + 4) % 7

/-- `private createTimeForDay(baseDate, dayOfWeek, hour)`: advance to
the next occurrence of `dayOfWeek` within the coming 7 days (0 days if
`baseDate` already falls on it) and set the time of day to `hour`
sharp.  For `dayOfWeek ≤ 6` the source's
`(dayOfWeek - currentDay + 7) % 7` equals this natural-number
formula. -/
def createTimeForDay (base : Nat) (dayOfWeek hour : Nat) : Nat :=
  let daysUntilTarget := (dayOfWeek + 7 - jsGetDay base) % 7
  (base / 86400000 + daysUntilTarget) * 86400000 + hour * 3600000

/-- Is the slot's occurrence (per `createTimeForDay`) strictly in the
future? -/
def futureSlot (now : Nat) (t : OptimalTime) : Bool :=
  decide (now < createTimeForDay now t.dayOfWeek t.hour)

/-- The body of `calculateOptimalTime`'s inner loop: adopt the slot when
its occurrence is strictly future and its engagement strictly beats the
best score so far. -/
def optStep (now : Nat) (acc : Nat × Nat) (t : OptimalTime) : Nat × Nat :=
  let scheduledTime := createTimeForDay now t.dayOfWeek t.hour
  if now < scheduledTime ∧ acc.2 < t.engagement then (scheduledTime, t.engagement)
  else acc

/-- `private calculateOptimalTime(platforms)`: fold over the configured
slots of each requested platform (an absent `optimalTimes[platform]`
entry is the empty list), starting from the default `now + 1 hour` with
best score 0. -/
def calculateOptimalTime (now : Nat)
    (optimalTimes : Option (PlatformType → List OptimalTime))
    (platforms : List PlatformType) : Nat :=
  match optimalTimes with
  | none => now + 3600000
  | some times =>
    (platforms.foldl (fun acc p => (times p).foldl (optStep now) acc)
      (now + 3600000, 0)).1

/-- The highest engagement among a list of slots (0 when empty). -/
def maxEngagement (l : List OptimalTime) : Nat :=
  l.foldr (fun t m => max t.engagement m) 0

/-- Specification-side selection: among the qualifying (strictly
future) slots in iteration order, the first one attaining the maximal
engagement, provided that maximum is positive. -/
def bestSlotSpec (now : Nat) (l : List OptimalTime) : Option OptimalTime :=
  let q := l.filter (futureSlot now)
  if maxEngagement q = 0 then none
  else q.find? (fun t => decide (t.engagement = maxEngagement q))

/-- A positive maximal engagement is attained by some slot of the
list. -/
theorem maxEngagement_attained :
    ∀ (q : List OptimalTime), maxEngagement q ≠ 0 →
      ∃ u ∈ q, u.engagement = maxEngagement q := by
  intro q
  induction q with
  | nil => intro h; simp [maxEngagement] at h
  | cons t q ih =>
    intro h
    have hM : maxEngagement (t :: q) = max t.engagement (maxEngagement q) := rfl
    by_cases hc : maxEngagement q ≤ t.engagement
    · exact ⟨t, List.mem_cons_self t q, by rw [hM]; omega⟩
    · obtain ⟨u, hu, hequ⟩ := ih (by omega)
      exact ⟨u, List.mem_cons_of_mem t hu, by rw [hM]; omega⟩

/-- Characterization of `calculateOptimalTime`'s scan: starting from
best time `bt` and best score `bs`, the fold returns `(bt, bs)` when no
qualifying future slot beats `bs`; otherwise it returns the occurrence
and engagement of the first qualifying slot (in iteration order)
attaining the maximal engagement. -/
theorem optFold_spec (now : Nat) :
    ∀ (l : List OptimalTime) (bt bs : Nat),
      l.foldl (optStep now) (bt, bs) =
        (if maxEngagement (l.filter (futureSlot now)) ≤ bs then (bt, bs)
         else
           match (l.filter (futureSlot now)).find?
               (fun t => decide (t.engagement = maxEngagement (l.filter (futureSlot now)))) with
           | some u => (createTimeForDay now u.dayOfWeek u.hour,
               maxEngagement (l.filter (futureSlot now)))
           | none => (bt, bs)) := by
  intro l
  induction l with
  | nil => intro bt bs; simp [maxEngagement]
  | cons t l ih =>
    intro bt bs
    rw [List.foldl_cons]
    cases hfut : futureSlot now t with
    | false =>
      have hnf : ¬ now < createTimeForDay now t.dayOfWeek t.hour := by
        simpa [futureSlot] using hfut
      have hstep : optStep now (bt, bs) t = (bt, bs) := by
        simp [optStep, hnf]
      rw [hstep, ih, List.filter_cons_of_neg (by simp [hfut])]
    | true =>
      have hfut' : now < createTimeForDay now t.dayOfWeek t.hour := by
        simpa [futureSlot] using hfut
      rw [List.filter_cons_of_pos (by simp [hfut])]
      have hM : maxEngagement (t :: l.filter (futureSlot now)) =
          max t.engagement (maxEngagement (l.filter (futureSlot now))) := rfl
      by_cases heng : bs < t.engagement
      · have hstep : optStep now (bt, bs) t =
            (createTimeForDay now t.dayOfWeek t.hour, t.engagement) := by
          simp [optStep, hfut', heng]
        rw [hstep, ih]
        by_cases hcmp : maxEngagement (l.filter (futureSlot now)) ≤ t.engagement
        · have hmax : maxEngagement (t :: l.filter (futureSlot now)) = t.engagement := by
            rw [hM]; omega
          rw [if_pos hcmp, hmax, if_neg (by omega),
            List.find?_cons_of_pos _ (by simp)]
        · have hmax : maxEngagement (t :: l.filter (futureSlot now)) =
              maxEngagement (l.filter (futureSlot now)) := by
            rw [hM]; omega
          rw [if_neg hcmp, hmax, if_neg (by omega),
            List.find?_cons_of_neg _ (by simp; omega)]
          obtain ⟨u, hu, hequ⟩ :=
            maxEngagement_attained (l.filter (futureSlot now)) (by omega)
          cases hfind : (l.filter (futureSlot now)).find?
              (fun x => decide (x.engagement = maxEngagement (l.filter (futureSlot now)))) with
          | none =>
            exact absurd (by simpa using hequ) (by simpa using List.find?_eq_none.mp hfind u hu)
          | some w => rfl
      · have hstep : optStep now (bt, bs) t = (bt, bs) := by
          simp [optStep, heng]
        rw [hstep, ih]
        by_cases hMb : maxEngagement (l.filter (futureSlot now)) ≤ bs
        · rw [if_pos hMb, if_pos (by rw [hM]; omega)]
        · have hmax : maxEngagement (t :: l.filter (futureSlot now)) =
              maxEngagement (l.filter (futureSlot now)) := by
            rw [hM]; omega
          rw [if_neg hMb, hmax, if_neg (by omega),
            List.find?_cons_of_neg _ (by simp; omega)]

/-- Folding platform-by-platform over each platform's slot list is
folding over the concatenated slot list. -/
theorem foldl_nested {β : Type} (g : β → OptimalTime → β)
    (times : PlatformType → List OptimalTime) :
    ∀ (ps : List PlatformType) (a : β),
      ps.foldl (fun acc p => (times p).foldl g acc) a =
        (ps.flatMap times).foldl g a := by
  intro ps
  induction ps with
  | nil => intro a; rfl
  | cons p ps ih => intro a; simp [List.flatMap_cons, List.foldl_append, ih]

/-- C8 amended: with no slot configuration the result is exactly
`now + 1 hour`; with slots, the result is the coming-week occurrence
(per `createTimeForDay`) of the first slot, in platform-then-list
iteration order, attaining the maximal engagement among the slots whose
occurrence is strictly future — provided that maximum is positive —
and `now + 1 hour` otherwise.  Ties in engagement are thus broken by
iteration order, not by nearness. -/
theorem C8_amended_optimal_time :
    (∀ (now : Nat) (platforms : List PlatformType),
      calculateOptimalTime now none platforms = now + 3600000) ∧
    (∀ (now : Nat) (times : PlatformType → List OptimalTime)
        (platforms : List PlatformType),
      calculateOptimalTime now (some times) platforms =
        match bestSlotSpec now (platforms.flatMap times) with
        | none => now + 3600000
        | some u => createTimeForDay now u.dayOfWeek u.hour) := by
  refine ⟨fun now platforms => rfl, fun now times platforms => ?_⟩
  simp only [calculateOptimalTime, bestSlotSpec]
  rw [foldl_nested (optStep now) times platforms, optFold_spec]
  by_cases h0 : maxEngagement ((platforms.flatMap times).filter (futureSlot now)) = 0
  · simp [h0]
  · rw [if_neg (by omega), if_neg h0]
    cases hfind : ((platforms.flatMap times).filter (futureSlot now)).find?
        (fun t => decide (t.engagement =
          maxEngagement ((platforms.flatMap times).filter (futureSlot now)))) with
    | none => rfl
    | some u => rfl

/-- The slot table refuting C8: two equally engaging future slots for
twitter, the farther one (Saturday) listed before the nearer one
(Friday). -/
def slotsTwoSat : PlatformType → List OptimalTime
  | .twitter => [{ dayOfWeek := 6, hour := 10, engagement := 80 },
                 { dayOfWeek := 5, hour := 10, engagement := 80 }]
  | _ => []

/-- C8 is false on the code: at `now = 0` (a Thursday) the computation
returns the Saturday slot's occurrence (208800000 ms) merely because it
is listed first, even though the Friday slot (122400000 ms) is also a
strictly future slot with the same, maximal engagement 80 and is
strictly nearer — so the result is not the nearest future slot with the
highest engagement. -/
theorem C8_counterexample :
    calculateOptimalTime 0 (some slotsTwoSat) [PlatformType.twitter] = 208800000 ∧
    createTimeForDay 0 6 10 = 208800000 ∧
    createTimeForDay 0 5 10 = 122400000 ∧
    (0 : Nat) < 122400000 ∧
    ({ dayOfWeek := 5, hour := 10, engagement := 80 } : OptimalTime) ∈
      slotsTwoSat PlatformType.twitter ∧
    (∀ t ∈ slotsTwoSat PlatformType.twitter, t.engagement ≤ 80) ∧
    (122400000 : Nat) < 208800000 := by
  refine ⟨?_, ?_, ?_, ?_, ?_, ?_, ?_⟩ <;> decide

/-! ## Bulk publisher (`BulkPublisher` class) -/

/-- A ready bulk item as observed by `publishAll`'s sorting and
batching: identification, priority and creation time (the other fields
do not influence wave structure). -/
structure BulkItem where
  id : Nat
  priority : Priority
  createdAt : Nat
deriving Repr, DecidableEq

/-- The comparator of `sortItemsByPriority`:
`priorityOrder[b.priority] - priorityOrder[a.priority]` when nonzero,
else `a.createdAt - b.createdAt`. -/
def bulkCompare (a b : BulkItem) : Int :=
  if priorityOrder b.priority - priorityOrder a.priority ≠ 0 then
    priorityOrder b.priority - priorityOrder a.priority
  else (a.createdAt : Int) - (b.createdAt : Int)

/-- `a` sorts no later than `b` under the bulk comparator (stable
comparator-sort semantics, as for `qcLe`). -/
def bulkLe (a b : BulkItem) : Prop := bulkCompare a b ≤ 0

instance : DecidableRel bulkLe := fun _ _ => Int.decLe _ _

/-- `private sortItemsByPriority(items)`. -/
def sortItemsByPriority (items : List BulkItem) : List BulkItem :=
  List.insertionSort bulkLe items

/-- The ordering C10 claims: priority descending, then `createdAt`
ascending. -/
def bulkRel (a b : BulkItem) : Prop :=
  priorityOrder b.priority < priorityOrder a.priority ∨
  (priorityOrder a.priority = priorityOrder b.priority ∧ a.createdAt ≤ b.createdAt)

/-- The bulk comparator ordering is exactly the claimed ordering. -/
theorem bulkLe_iff (a b : BulkItem) : bulkLe a b ↔ bulkRel a b := by
  unfold bulkLe bulkCompare bulkRel
  split_ifs with h <;> constructor <;> intro h1 <;> omega

instance : IsTotal BulkItem bulkLe :=
  ⟨fun x y => by
    simp only [bulkLe_iff, bulkRel]
    omega⟩

instance : IsTrans BulkItem bulkLe :=
  ⟨fun x y z => by
    simp only [bulkLe_iff, bulkRel]
    omega⟩

/-- `this.config.concurrency || 5` (the constructor default and the
falsy fallback coincide). -/
def effConcurrency (cc : Option Nat) : Nat :=
  match cc with
  | some n => if n = 0 then 5 else n
  | none => 5

/-- `this.config.delayBetweenPublishes || 2000`. -/
def effDelay (dd : Option Nat) : Nat :=
  match dd with
  | some n => if n = 0 then 2000 else n
  | none => 2000

/-- One observable event of `publishItemsInBatches`: a wave of items
dispatched concurrently and awaited together (`Promise.allSettled`), or
an inter-wave sleep. -/
inductive BatchEvent
  | wave (items : List BulkItem)
  | sleep (ms : Nat)
deriving Repr, DecidableEq

/-- The consecutive batches `items.slice(i, i + concurrency)` of the
`for (let i = 0; i < items.length; i += concurrency)` loop; `fuel`
bounds the iteration count (`l.length` suffices when `1 ≤ c`). -/
def chunksF : Nat → Nat → List BulkItem → List (List BulkItem)
  | 0, _, _ => []
  | _ + 1, _, [] => []
  | fuel + 1, c, x :: xs => (x :: xs).take c :: chunksF fuel c ((x :: xs).drop c)

/-- The wave partition of the batch loop. -/
def waves (c : Nat) (l : List BulkItem) : List (List BulkItem) :=
  chunksF l.length c l

/-- The event trace of the batch loop: each iteration emits its wave,
then sleeps `delayMs` exactly when `i + concurrency < items.length`,
i.e. when another wave follows. -/
def batchTraceF (c delayMs : Nat) : Nat → List BulkItem → List BatchEvent
  | 0, _ => []
  | _ + 1, [] => []
  | fuel + 1, x :: xs =>
    BatchEvent.wave ((x :: xs).take c) ::
      (if c < (x :: xs).length then
        BatchEvent.sleep delayMs :: batchTraceF c delayMs fuel ((x :: xs).drop c)
      else batchTraceF c delayMs fuel ((x :: xs).drop c))

/-- `private publishItemsInBatches(items)` as its event trace. -/
def publishItemsInBatches (cc dd : Option Nat) (items : List BulkItem) :
    List BatchEvent :=
  batchTraceF (effConcurrency cc) (effDelay dd) items.length items

/-- `publishAll` on its ready items: sort by priority, then batch. -/
def publishAllReadyWaves (cc dd : Option Nat) (readyItems : List BulkItem) :
    List BatchEvent :=
  publishItemsInBatches cc dd (sortItemsByPriority readyItems)

/-- The batch loop on an exhausted list emits nothing, at any fuel. -/
theorem batchTraceF_nil (c d : Nat) : ∀ fuel, batchTraceF c d fuel [] = [] := by
  intro fuel; cases fuel <;> rfl

/-- The chunk list of an exhausted list is empty, at any fuel. -/
theorem chunksF_nil (c : Nat) : ∀ fuel, chunksF fuel c [] = [] := by
  intro fuel; cases fuel <;> rfl

/-- With fuel covering the list and positive chunk size, a nonempty
list yields a nonempty chunk list. -/
theorem chunksF_ne_nil (c : Nat) (fuel : Nat) (x : BulkItem) (xs : List BulkItem)
    (hf : 1 ≤ fuel) : chunksF fuel c (x :: xs) ≠ [] := by
  cases fuel with
  | zero => omega
  | succ f => simp [chunksF]

/-- The batch loop's trace is exactly its waves separated by single
inter-wave sleeps (no sleep after the last wave). -/
theorem batchTraceF_eq_intersperse (c d : Nat) (hc : 1 ≤ c) :
    ∀ (fuel : Nat) (l : List BulkItem), l.length ≤ fuel →
      batchTraceF c d fuel l =
        List.intersperse (BatchEvent.sleep d)
          ((chunksF fuel c l).map BatchEvent.wave) := by
  intro fuel
  induction fuel with
  | zero => intro l hl; rfl
  | succ f ih =>
    intro l hl
    cases l with
    | nil => rfl
    | cons x xs =>
      simp only [batchTraceF, chunksF, List.map_cons]
      by_cases hlt : c < (x :: xs).length
      · have hlen : ((x :: xs).drop c).length = xs.length + 1 - c := by simp
        have hlt' : c < xs.length + 1 := by simpa using hlt
        have hl' : xs.length + 1 ≤ f + 1 := by simpa using hl
        have hne : chunksF f c ((x :: xs).drop c) ≠ [] := by
          cases hd : (x :: xs).drop c with
          | nil =>
            rw [hd] at hlen
            simp at hlen
            omega
          | cons y ys =>
            apply chunksF_ne_nil
            rw [hd] at hlen
            simp at hlen
            omega
        rw [if_pos hlt, ih ((x :: xs).drop c) (by rw [hlen]; omega)]
        cases hch : chunksF f c ((x :: xs).drop c) with
        | nil => exact absurd hch hne
        | cons w ws => simp
      · rw [if_neg hlt,
          List.drop_eq_nil_of_le (by simp at hlt ⊢; omega),
          batchTraceF_nil, chunksF_nil]
        simp

/-- The waves concatenate back to the processed list: every item is
dispatched exactly once, in order. -/
theorem chunksF_flatten (c : Nat) (hc : 1 ≤ c) :
    ∀ (fuel : Nat) (l : List BulkItem), l.length ≤ fuel →
      (chunksF fuel c l).flatten = l := by
  intro fuel
  induction fuel with
  | zero =>
    intro l hl
    have : l = [] := List.eq_nil_of_length_eq_zero (by omega)
    subst this; rfl
  | succ f ih =>
    intro l hl
    cases l with
    | nil => rfl
    | cons x xs =>
      simp only [chunksF, List.flatten_cons]
      have hl' : xs.length + 1 ≤ f + 1 := by simpa using hl
      rw [ih ((x :: xs).drop c) (by simp; omega)]
      exact List.take_append_drop c (x :: xs)

/-- Every wave is nonempty and no larger than the concurrency bound. -/
theorem chunksF_sizes (c : Nat) (hc : 1 ≤ c) :
    ∀ (fuel : Nat) (l : List BulkItem), l.length ≤ fuel →
      ∀ w ∈ chunksF fuel c l, w ≠ [] ∧ w.length ≤ c := by
  intro fuel
  induction fuel with
  | zero => intro l hl w hw; simp [chunksF] at hw
  | succ f ih =>
    intro l hl w hw
    cases l with
    | nil => simp [chunksF] at hw
    | cons x xs =>
      simp only [chunksF] at hw
      rcases List.mem_cons.mp hw with hweq | hwmem
      · subst hweq
        constructor
        · have : ((x :: xs).take c).length = min c (x :: xs).length := by simp
          intro hnil
          rw [hnil] at this
          simp at this
          omega
        · simp
      · have hl' : xs.length + 1 ≤ f + 1 := by simpa using hl
        exact ih ((x :: xs).drop c) (by simp; omega) w hwmem

/-- Every wave except possibly the last is full. -/
theorem chunksF_full (c : Nat) (hc : 1 ≤ c) :
    ∀ (fuel : Nat) (l : List BulkItem), l.length ≤ fuel →
      ∀ w ∈ (chunksF fuel c l).dropLast, w.length = c := by
  intro fuel
  induction fuel with
  | zero => intro l hl w hw; simp [chunksF] at hw
  | succ f ih =>
    intro l hl w hw
    cases l with
    | nil => simp [chunksF] at hw
    | cons x xs =>
      simp only [chunksF] at hw
      cases hch : chunksF f c ((x :: xs).drop c) with
      | nil => rw [hch] at hw; simp at hw
      | cons u us =>
        rw [hch, List.dropLast_cons₂] at hw
        rcases List.mem_cons.mp hw with hweq | hwmem
        · subst hweq
          have hclen : c ≤ (x :: xs).length := by
            by_contra hcon
            have : (x :: xs).drop c = [] := List.drop_eq_nil_of_le (by omega)
            rw [this, chunksF_nil] at hch
            exact List.noConfusion hch
          have hclen' : c ≤ xs.length + 1 := by simpa using hclen
          simp
          omega
        · rw [← hch] at hwmem
          have hl' : xs.length + 1 ≤ f + 1 := by simpa using hl
          exact ih ((x :: xs).drop c) (by simp; omega) w hwmem

/-- The effective concurrency is always at least 1 (falsy fallback). -/
theorem one_le_effConcurrency (cc : Option Nat) : 1 ≤ effConcurrency cc := by
  cases cc with
  | none => simp [effConcurrency]
  | some n =>
    simp only [effConcurrency]
    split_ifs <;> omega

/-- An example bulk item of the 5-item wave scenario. -/
def exItem (n : Nat) : BulkItem := { id := n, priority := .medium, createdAt := n }

/-- Five equal-priority items in submission order. -/
def ex5 : List BulkItem := [exItem 0, exItem 1, exItem 2, exItem 3, exItem 4]

/-- C10: `publishAll` sorts the ready items by priority descending then
`createdAt` ascending and processes them in consecutive waves of size
`concurrency` (the last wave possibly smaller, every wave nonempty),
each wave awaited as a unit, with exactly one inter-wave sleep between
consecutive waves and none after the last; 5 ready items at
`concurrency = 2` give exactly the 3 waves (2, 2, 1). -/
theorem C10_publish_waves :
    (∀ (cc dd : Option Nat) (items : List BulkItem),
      publishAllReadyWaves cc dd items =
        List.intersperse (BatchEvent.sleep (effDelay dd))
          ((waves (effConcurrency cc) (sortItemsByPriority items)).map BatchEvent.wave) ∧
      (waves (effConcurrency cc) (sortItemsByPriority items)).flatten =
        sortItemsByPriority items ∧
      (sortItemsByPriority items).Perm items ∧
      (sortItemsByPriority items).Pairwise bulkRel ∧
      (∀ w ∈ waves (effConcurrency cc) (sortItemsByPriority items),
        w ≠ [] ∧ w.length ≤ effConcurrency cc) ∧
      (∀ w ∈ (waves (effConcurrency cc) (sortItemsByPriority items)).dropLast,
        w.length = effConcurrency cc)) ∧
    (waves 2 (sortItemsByPriority ex5)).map List.length = [2, 2, 1] ∧
    publishAllReadyWaves (some 2) (some 1000) ex5 =
      [BatchEvent.wave [exItem 0, exItem 1], BatchEvent.sleep 1000,
       BatchEvent.wave [exItem 2, exItem 3], BatchEvent.sleep 1000,
       BatchEvent.wave [exItem 4]] := by
  refine ⟨fun cc dd items => ⟨?_, ?_, ?_, ?_, ?_, ?_⟩, by decide, by decide⟩
  · exact batchTraceF_eq_intersperse (effConcurrency cc) (effDelay dd)
      (one_le_effConcurrency cc) _ _ (le_refl _)
  · exact chunksF_flatten (effConcurrency cc) (one_le_effConcurrency cc) _ _ (le_refl _)
  · exact List.perm_insertionSort bulkLe items
  · exact (List.sorted_insertionSort bulkLe items).imp
      (fun {a b} h => (bulkLe_iff a b).mp h)
  · exact fun w hw => chunksF_sizes (effConcurrency cc) (one_le_effConcurrency cc)
      _ _ (le_refl _) w hw
  · exact fun w hw => chunksF_full (effConcurrency cc) (one_le_effConcurrency cc)
      _ _ (le_refl _) w hw

/-- Witness for C10 at a concrete input: the first wave of the 5-item
scenario is nonempty, within the bound, and full. -/
theorem C10_witness :
    ([exItem 0, exItem 1] ≠ [] ∧
      [exItem 0, exItem 1].length ≤ effConcurrency (some 2)) ∧
    [exItem 0, exItem 1].length = effConcurrency (some 2) :=
  ⟨(C10_publish_waves.1 (some 2) (some 1000) ex5).2.2.2.2.1
      [exItem 0, exItem 1] (by decide),
   (C10_publish_waves.1 (some 2) (some 1000) ex5).2.2.2.2.2
      [exItem 0, exItem 1] (by decide)⟩

/-! ## Content tester (`ContentTester` class, `src/core/content-tester.ts`) -/

/-- The `ContentType` union. -/
inductive ContentType
  | blog
  | faq
  | article
  | product_description
  | landing_page
  | social_post
  | social_story
  | social_reel
  | social_carousel
  | newsletter
  | newsletter_issue
  | newsletter_series
  | medium_story
  | linkedin_article
  | twitter_thread
  | reddit_post
  | tumblr_post
deriving Repr, DecidableEq

/-- The string value of a `ContentType` (the requirement tables compare
plain strings, and one of them lists a string outside the union). -/
def contentTypeStr : ContentType → String
  | .blog => "blog"
  | .faq => "faq"
  | .article => "article"
  | .product_description => "product-description"
  | .landing_page => "landing-page"
  | .social_post => "social-post"
  | .social_story => "social-story"
  | .social_reel => "social-reel"
  | .social_carousel => "social-carousel"
  | .newsletter => "newsletter"
  | .newsletter_issue => "newsletter-issue"
  | .newsletter_series => "newsletter-series"
  | .medium_story => "medium-story"
  | .linkedin_article => "linkedin-article"
  | .twitter_thread => "twitter-thread"
  | .reddit_post => "reddit-post"
  | .tumblr_post => "tumblr-post"

/-- The string identifier of a target platform. -/
def platformId : PlatformType → String
  | .webflow => "webflow"
  | .wordpress => "wordpress"
  | .ghost => "ghost"
  | .medium => "medium"
  | .reddit => "reddit"
  | .blogger => "blogger"
  | .instagram => "instagram"
  | .linkedin => "linkedin"
  | .facebook => "facebook"
  | .twitter => "twitter"
  | .tumblr => "tumblr"
  | .substack => "substack"

/-- A content image (only its presence and count are tested). -/
structure ContentImage where
  url : String := ""
deriving Repr, DecidableEq

/-- The content fields the tester reads.  `ctype` is the source's
`type`; `twitterThreadTweets` is `twitterThread.tweets` reduced to the
tweets' texts (only their total length is tested). -/
structure AIContent where
  ctype : ContentType
  title : String
  content : String
  excerpt : Option String := none
  tags : Option (List String) := none
  images : Option (List ContentImage) := none
  twitterThreadTweets : Option (List String) := none
deriving Repr, DecidableEq

/-- `ContentIssue.type` values. -/
inductive IssueKind
  | error
  | warning
  | info
deriving Repr, DecidableEq

/-- `ContentIssue.severity` values. -/
inductive Severity
  | low
  | medium
  | high
  | critical
deriving Repr, DecidableEq

/-- A reported issue (messages and suggestion texts, which no modelled
observation reads, are omitted). -/
structure ContentIssue where
  kind : IssueKind
  field : String
  severity : Severity
deriving Repr, DecidableEq

/-- `PlatformRequirements.imageRequirements`. -/
structure ImageRequirements where
  maxSize : Option Nat := none
  supportedFormats : Option (List String) := none
  maxCount : Option Nat := none
deriving Repr, DecidableEq

/-- `PlatformRequirements` (the unused `characterLimits` table is
omitted). -/
structure PlatformRequirements where
  maxTitleLength : Option Nat := none
  maxContentLength : Option Nat := none
  maxExcerptLength : Option Nat := none
  maxTags : Option Nat := none
  maxHashtags : Option Nat := none
  requiredFields : Option (List String) := none
  supportedContentTypes : Option (List String) := none
  imageRequirements : Option ImageRequirements := none
deriving Repr, DecidableEq

/-- `initializePlatformRequirements()`: the static per-platform tables;
platforms without an entry map to `none`. -/
def platformRequirements : PlatformType → Option PlatformRequirements
  | .twitter => some
    { maxTitleLength := some 280, maxContentLength := some 280,
      maxHashtags := some 3,
      supportedContentTypes := some ["social-post", "twitter-thread"] }
  | .linkedin => some
    { maxTitleLength := some 200, maxContentLength := some 3000,
      maxExcerptLength := some 300, maxHashtags := some 5,
      supportedContentTypes := some ["social-post", "linkedin-article"] }
  | .instagram => some
    { maxContentLength := some 2200, maxHashtags := some 30,
      supportedContentTypes :=
        some ["social-post", "social-story", "social-reel", "social-carousel"],
      imageRequirements := some
        { maxSize := some 8388608, supportedFormats := some ["jpg", "jpeg", "png"],
          maxCount := some 10 } }
  | .medium => some
    { maxTitleLength := some 100, maxContentLength := some 1000000,
      maxTags := some 5, supportedContentTypes := some ["article", "medium-story"] }
  | .ghost => some
    { maxTitleLength := some 200, maxContentLength := some 1000000,
      maxExcerptLength := some 300,
      supportedContentTypes := some ["blog", "article"] }
  | .wordpress => some
    { maxTitleLength := some 200, maxContentLength := some 1000000,
      maxExcerptLength := some 300,
      supportedContentTypes := some ["blog", "article", "page"] }
  | .webflow => some
    { maxTitleLength := some 200, maxContentLength := some 1000000,
      supportedContentTypes := some ["blog", "article", "landing-page"] }
  | .substack => some
    { maxTitleLength := some 200, maxContentLength := some 1000000,
      maxExcerptLength := some 300,
      supportedContentTypes := some ["newsletter", "newsletter-issue", "article"] }
  | _ => none

/-- A `\w` regex word character. -/
def isWordChar (c : Char) : Bool :=
  ('a' ≤ c && c ≤ 'z') || ('A' ≤ c && c ≤ 'Z') || ('0' ≤ c && c ≤ '9') || c = '_'

/-- The number of `/#\w+/g` matches: a match's word-run contains no
`#`, so the non-overlapping matches are exactly the positions where `#`
immediately precedes a word character. -/
def hashtagCount : List Char → Nat
  | a :: b :: rest => (if a = '#' ∧ isWordChar b then 1 else 0) + hashtagCount (b :: rest)
  | _ => 0

/-- `private countHashtags(content)` over
`title + " " + content + " " + (excerpt || "")`. -/
def countHashtags (c : AIContent) : Nat :=
  hashtagCount (c.title ++ " " ++ c.content ++ " " ++ c.excerpt.getD "").toList

/-- `private hasRequiredField(content, field)` (probing an unknown
property yields `undefined`, which is falsy). -/
def hasRequiredField (c : AIContent) (field : String) : Bool :=
  if field = "title" then !c.title.isEmpty
  else if field = "content" then !c.content.isEmpty
  else if field = "excerpt" then
    match c.excerpt with
    | some e => !e.isEmpty
    | none => false
  else if field = "tags" then
    match c.tags with
    | some ts => !ts.isEmpty
    | none => false
  else if field = "images" then
    match c.images with
    | some imgs => !imgs.isEmpty
    | none => false
  else false

/-- `private testImages(images, requirements, platform)`: only the
count bound is checked (sizes and formats are left unchecked in the
source). -/
def testImages (images : List ContentImage) (ir : ImageRequirements) :
    List ContentIssue :=
  match ir.maxCount with
  | some mc =>
    if mc < images.length then [{ kind := .error, field := "images", severity := .high }]
    else []
  | none => []

/-- `private testPlatformSpecificRequirements(content, platform)`. -/
def testPlatformSpecificRequirements (c : AIContent) (p : PlatformType) :
    List ContentIssue :=
  match p with
  | .twitter =>
    if c.ctype = .twitter_thread then
      match c.twitterThreadTweets with
      | some tweets =>
        if 2800 < (tweets.map String.length).sum then
          [{ kind := .warning, field := "twitterThread", severity := .medium }]
        else []
      | none => []
    else []
  | .linkedin =>
    if strIncludes c.content "!!!" || strIncludes c.content "???" then
      [{ kind := .info, field := "content", severity := .low }]
    else []
  | .instagram =>
    match c.images with
    | some imgs =>
      if imgs.isEmpty then [{ kind := .warning, field := "images", severity := .medium }]
      else []
    | none => [{ kind := .warning, field := "images", severity := .medium }]
  | _ => []

/-- A test result (`suggestions` and `estimatedEngagement`, unread by
the modelled observations, are omitted). -/
structure ContentTestResult where
  platform : PlatformType
  isCompatible : Bool
  score : Nat
  issues : List ContentIssue
deriving Repr, DecidableEq

/-- `testContentForPlatform(content, platform)`: the sequential issue
accumulation and score deductions; the running score is an integer
(it can go below zero before the final `Math.max(0, score)` floor). -/
def testContentForPlatform (c : AIContent) (p : PlatformType) : ContentTestResult :=
  match platformRequirements p with
  | none =>
    { platform := p, isCompatible := false, score := 0,
      issues := [{ kind := .error, field := "platform", severity := .critical }] }
  | some req =>
    let acc : List ContentIssue × Int := ([], 100)
    let acc : List ContentIssue × Int := match req.supportedContentTypes with
      | some lst =>
        if ¬ lst.contains (contentTypeStr c.ctype) then
          (acc.1 ++ [{ kind := .warning, field := "type", severity := .medium }], acc.2 - 20)
        else acc
      | none => acc
    let acc : List ContentIssue × Int := match req.maxTitleLength with
      | some m =>
        if m < c.title.length then
          (acc.1 ++ [{ kind := .error, field := "title", severity := .high }], acc.2 - 30)
        else acc
      | none => acc
    let acc : List ContentIssue × Int := match req.maxContentLength with
      | some m =>
        if m < c.content.length then
          (acc.1 ++ [{ kind := .error, field := "content", severity := .high }], acc.2 - 30)
        else acc
      | none => acc
    let acc : List ContentIssue × Int := match req.maxExcerptLength, c.excerpt with
      | some m, some e =>
        if m < e.length then
          (acc.1 ++ [{ kind := .warning, field := "excerpt", severity := .medium }], acc.2 - 10)
        else acc
      | _, _ => acc
    let acc : List ContentIssue × Int := match req.maxTags, c.tags with
      | some m, some ts =>
        if m < ts.length then
          (acc.1 ++ [{ kind := .warning, field := "tags", severity := .medium }], acc.2 - 10)
        else acc
      | _, _ => acc
    let acc : List ContentIssue × Int := match req.maxHashtags with
      | some m =>
        if m < countHashtags c then
          (acc.1 ++ [{ kind := .warning, field := "hashtags", severity := .medium }], acc.2 - 10)
        else acc
      | none => acc
    let acc : List ContentIssue × Int := match req.requiredFields with
      | some fs =>
        fs.foldl (fun a f =>
          if ¬ hasRequiredField c f then
            (a.1 ++ [{ kind := .error, field := f, severity := .high }], a.2 - 25)
          else a) acc
      | none => acc
    let acc : List ContentIssue × Int := match req.imageRequirements, c.images with
      | some ir, some imgs =>
        let imageIssues := testImages imgs ir
        (acc.1 ++ imageIssues, acc.2 - 5 * imageIssues.length)
      | _, _ => acc
    let platformSpecificIssues := testPlatformSpecificRequirements c p
    let acc : List ContentIssue × Int :=
      (acc.1 ++ platformSpecificIssues, acc.2 - 5 * platformSpecificIssues.length)
    { platform := p,
      isCompatible :=
        (acc.1.filter (fun i =>
          decide (i.severity = .critical ∨ i.severity = .high))).length = 0,
      score := (max (0 : Int) acc.2).toNat,
      issues := acc.1 }

/-- The pair `(platform, result)` built by `getBestPlatformsForContent`'s
`map` stage. -/
def testPair (c : AIContent) (p : PlatformType) : PlatformType × ContentTestResult :=
  (p, testContentForPlatform c p)

/-- The comparator `b.result.score - a.result.score` of
`getBestPlatformsForContent`, as the stable-sort placement relation
(`a` before `b` iff the comparator is ≤ 0). -/
def pairLe (a b : PlatformType × ContentTestResult) : Prop :=
  ((b.2.score : Int) - (a.2.score : Int)) ≤ 0

instance : DecidableRel pairLe := fun _ _ => Int.decLe _ _

/-- The comparator relation is descending score. -/
theorem pairLe_iff (a b : PlatformType × ContentTestResult) :
    pairLe a b ↔ b.2.score ≤ a.2.score := by
  unfold pairLe; omega

instance : IsTotal (PlatformType × ContentTestResult) pairLe :=
  ⟨fun x y => by simp only [pairLe_iff]; omega⟩

instance : IsTrans (PlatformType × ContentTestResult) pairLe :=
  ⟨fun x y z => by simp only [pairLe_iff]; omega⟩

/-- `getBestPlatformsForContent(content, availablePlatforms)`: map to
results, keep the compatible pairs, stable-sort by descending score,
project the platforms. -/
def getBestPlatformsForContent (c : AIContent) (availablePlatforms : List PlatformType) :
    List PlatformType :=
  (List.insertionSort pairLe
    ((availablePlatforms.map (testPair c)).filter (fun x => x.2.isCompatible))).map
    Prod.fst

/-- Inserting an element outside a filter class leaves the class
unchanged. -/
theorem filter_orderedInsert_of_ne {α : Type} (r : α → α → Prop) [DecidableRel r]
    (p : α → Bool) (x : α) (hx : p x = false) :
    ∀ l : List α, (List.orderedInsert r x l).filter p = l.filter p := by
  intro l
  induction l with
  | nil => simp [hx]
  | cons y ys ih =>
    simp only [List.orderedInsert]
    split_ifs with h
    · simp [List.filter_cons, hx]
    · simp only [List.filter_cons]
      cases hp : p y <;> simp [hp, ih]

/-- Inserting an element of an equal-key class under the
descending-key relation places it at the head of the class: every
element skipped past has a strictly larger key. -/
theorem filter_orderedInsert_of_eq {α : Type} (f : α → Nat) (r : α → α → Prop)
    [DecidableRel r] (hr : ∀ a b, r a b ↔ f b ≤ f a) (k : Nat) (x : α)
    (hx : f x = k) :
    ∀ l : List α,
      (List.orderedInsert r x l).filter (fun a => decide (f a = k)) =
        x :: l.filter (fun a => decide (f a = k)) := by
  intro l
  induction l with
  | nil => simp [hx]
  | cons y ys ih =>
    simp only [List.orderedInsert]
    split_ifs with h
    · simp [List.filter_cons, hx]
    · have hy : ¬ f y = k := by
        rw [hr] at h
        omega
      simp only [List.filter_cons]
      simp [hy, ih]

/-- Stability of the comparator sort: every equal-key class appears in
the sorted output in its input order. -/
theorem filter_insertionSort_key {α : Type} (f : α → Nat) (r : α → α → Prop)
    [DecidableRel r] (hr : ∀ a b, r a b ↔ f b ≤ f a) (k : Nat) :
    ∀ l : List α,
      (List.insertionSort r l).filter (fun a => decide (f a = k)) =
        l.filter (fun a => decide (f a = k)) := by
  intro l
  induction l with
  | nil => rfl
  | cons x xs ih =>
    simp only [List.insertionSort]
    by_cases hx : f x = k
    · rw [filter_orderedInsert_of_eq f r hr k x hx, ih]
      simp [List.filter_cons, hx]
    · rw [filter_orderedInsert_of_ne r _ x (by simp [hx]), ih]
      simp [List.filter_cons, hx]

/-- Every pair surviving the compatibility filter carries the test
result of its own platform. -/
theorem bestPairs_snd (c : AIContent) (ps : List PlatformType) :
    ∀ x ∈ (ps.map (testPair c)).filter (fun x => x.2.isCompatible),
      x.2 = testContentForPlatform c x.1 := by
  intro x hx
  obtain ⟨p, _, rfl⟩ := List.mem_map.mp (List.mem_filter.mp hx).1
  rfl

/-- The compatibility filter over the mapped pairs is the mapped
compatibility filter over the platforms. -/
theorem bestPairs_eq_map (c : AIContent) (ps : List PlatformType) :
    (ps.map (testPair c)).filter (fun x => x.2.isCompatible) =
      (ps.filter (fun p => (testContentForPlatform c p).isCompatible)).map
        (testPair c) := by
  rw [List.filter_map]
  rfl

/-- C9 amended: `bestTargets` returns exactly the compatible targets —
a permutation of the compatible sublist of `availablePlatforms` — in
descending compatibility-score order, and targets with equal scores
keep the relative order they had in `availablePlatforms` (stable sort),
not lexical identifier order. -/
theorem C9_best_platforms (c : AIContent) (ps : List PlatformType) :
    (getBestPlatformsForContent c ps).Perm
      (ps.filter (fun p => (testContentForPlatform c p).isCompatible)) ∧
    (getBestPlatformsForContent c ps).Pairwise
      (fun p q => (testContentForPlatform c q).score ≤
        (testContentForPlatform c p).score) ∧
    ∀ k : Nat,
      (getBestPlatformsForContent c ps).filter
          (fun p => decide ((testContentForPlatform c p).score = k)) =
        (ps.filter (fun p => (testContentForPlatform c p).isCompatible)).filter
          (fun p => decide ((testContentForPlatform c p).score = k)) := by
  have h2 : ((ps.map (testPair c)).filter (fun x => x.2.isCompatible)).map Prod.fst =
      ps.filter (fun p => (testContentForPlatform c p).isCompatible) := by
    rw [bestPairs_eq_map, List.map_map]
    have hid : Prod.fst ∘ testPair c = id := rfl
    rw [hid, List.map_id]
  have hmemS : ∀ x ∈ List.insertionSort pairLe
      ((ps.map (testPair c)).filter (fun x => x.2.isCompatible)),
      x.2 = testContentForPlatform c x.1 := by
    intro x hx
    exact bestPairs_snd c ps x ((List.mem_insertionSort pairLe).mp hx)
  refine ⟨?_, ?_, ?_⟩
  · have h1 := (List.perm_insertionSort pairLe
      ((ps.map (testPair c)).filter (fun x => x.2.isCompatible))).map Prod.fst
    rw [h2] at h1
    exact h1
  · have hs := List.sorted_insertionSort pairLe
      ((ps.map (testPair c)).filter (fun x => x.2.isCompatible))
    unfold getBestPlatformsForContent
    rw [List.pairwise_map]
    exact hs.imp_of_mem (fun {a b} ha hb hab => by
      rw [← hmemS a ha, ← hmemS b hb]
      exact (pairLe_iff a b).mp hab)
  · intro k
    unfold getBestPlatformsForContent
    rw [List.filter_map]
    have e1 : (List.insertionSort pairLe
        ((ps.map (testPair c)).filter (fun x => x.2.isCompatible))).filter
          ((fun p => decide ((testContentForPlatform c p).score = k)) ∘ Prod.fst) =
        (List.insertionSort pairLe
        ((ps.map (testPair c)).filter (fun x => x.2.isCompatible))).filter
          (fun x => decide (x.2.score = k)) :=
      List.filter_congr (fun x hx => by simp [Function.comp, hmemS x hx])
    have e2 : ((ps.map (testPair c)).filter (fun x => x.2.isCompatible)).filter
          ((fun p => decide ((testContentForPlatform c p).score = k)) ∘ Prod.fst) =
        ((ps.map (testPair c)).filter (fun x => x.2.isCompatible)).filter
          (fun x => decide (x.2.score = k)) :=
      List.filter_congr (fun x hx => by simp [Function.comp, bestPairs_snd c ps x hx])
    rw [e1, filter_insertionSort_key (fun x => x.2.score) pairLe
      (fun a b => pairLe_iff a b) k, ← e2, ← List.filter_map, h2]

/-- Lexicographic (dictionary) order on character lists, used to state
the lexical-tie-break reading of C9. -/
def lexLt (a b : List Char) : Bool :=
  match a, b with
  | [], [] => false
  | [], _ :: _ => true
  | _ :: _, [] => false
  | x :: xs, y :: ys =>
    decide (x < y) || (decide (x = y) && lexLt xs ys)

/-- A short blog post compatible with both wordpress and ghost. -/
def blogContent : AIContent :=
  { ctype := .blog, title := "Hello", content := "World" }

/-- C9 is false on the code: with `availablePlatforms =
[wordpress, ghost]` both targets are compatible with the same score, and
`getBestPlatformsForContent` returns them in input order
`[wordpress, ghost]` (stable sort), although lexical identifier order
would put `ghost` first. -/
theorem C9_counterexample :
    getBestPlatformsForContent blogContent [.wordpress, .ghost] =
      [PlatformType.wordpress, PlatformType.ghost] ∧
    (testContentForPlatform blogContent .wordpress).score =
      (testContentForPlatform blogContent .ghost).score ∧
    (testContentForPlatform blogContent .wordpress).isCompatible = true ∧
    (testContentForPlatform blogContent .ghost).isCompatible = true ∧
    lexLt (platformId .ghost).toList (platformId .wordpress).toList = true ∧
    getBestPlatformsForContent blogContent [.wordpress, .ghost] ≠
      [PlatformType.ghost, PlatformType.wordpress] := by
  refine ⟨?_, ?_, ?_, ?_, ?_, ?_⟩ <;> decide
